import Mathlib

/-!
Verification development for the radiation-mapper repository.

The definitions below are a shallow embedding of the Python sources:

* `radiation_mapper.py` — `RadiationZoneMapper.classify_zone`,
  `RadiationZoneMapper.create_interpolated_map`, and the per-zone filters of
  `RadiationZoneMapper.generate_compliance_report`;
* `mu_values.py` — `MATERIAL_DATA`, `get_mu`, `required_thickness`;
* `app.py` — the boundary-leak check (`boundary_points` / `max_boundary_dose`).

Dose rates, coordinates and tabulated constants are floats in the source; they
are modelled as exact rationals (`ℚ`) where only ordered-field arithmetic and
comparisons occur, and as exact reals (`ℝ`) where `np.log` / `np.exp` appear.
-/

/-! ### Zone classification (radiation_mapper.py, `RadiationZoneMapper`) -/

/-- `self.zone_limits['Public']` from `RadiationZoneMapper.__init__`. -/
def zone_limit_Public : ℚ := 0.5

/-- `self.zone_limits['Supervised']`. -/
def zone_limit_Supervised : ℚ := 7.5

/-- `self.zone_limits['Controlled']`.  (`zone_limits['Restricted']` is
`float('inf')` in the source and is never compared by `classify_zone`, whose
final branch is an `else`.) -/
def zone_limit_Controlled : ℚ := 25

/-- `self.zone_colors` entries from `RadiationZoneMapper.__init__`. -/
def zone_color_Public : String := "#2ECC71"

def zone_color_Supervised : String := "#F1C40F"

def zone_color_Controlled : String := "#E67E22"

def zone_color_Restricted : String := "#E74C3C"

/-- `RadiationZoneMapper.classify_zone`: returns `(zone_name, color_code)`,
testing the ascending band bounds with strict `<` and an `else` fallback. -/
def classify_zone (dose_rate : ℚ) : String × String :=
  if dose_rate < zone_limit_Public then ("Public", zone_color_Public)
  else if dose_rate < zone_limit_Supervised then ("Supervised", zone_color_Supervised)
  else if dose_rate < zone_limit_Controlled then ("Controlled", zone_color_Controlled)
  else ("Restricted", zone_color_Restricted)

/-! Per-zone point counts of `RadiationZoneMapper.generate_compliance_report`
(the `zone_stats` loop): each zone's count is the length of a filtered copy of
the measurement column, with the report's own threshold comparisons. -/

/-- Report filter for `Public`: `dose_rate < limit` with `limit = 0.5`. -/
def count_Public (ms : List ℚ) : ℕ :=
  (ms.filter (fun d => decide (d < zone_limit_Public))).length

/-- Report filter for `Supervised`:
`dose_rate >= zone_limits['Public'] and dose_rate < 7.5`. -/
def count_Supervised (ms : List ℚ) : ℕ :=
  (ms.filter (fun d => decide (zone_limit_Public ≤ d ∧ d < zone_limit_Supervised))).length

/-- Report filter for `Controlled`:
`dose_rate >= zone_limits['Supervised'] and dose_rate < 25`. -/
def count_Controlled (ms : List ℚ) : ℕ :=
  (ms.filter (fun d => decide (zone_limit_Supervised ≤ d ∧ d < zone_limit_Controlled))).length

/-- Report filter for `Restricted`: `dose_rate >= zone_limits['Controlled']`. -/
def count_Restricted (ms : List ℚ) : ℕ :=
  (ms.filter (fun d => decide (zone_limit_Controlled ≤ d))).length

/-! ### Measurements and the boundary-leak check (app.py) -/

/-- One row of the measurement table: columns `x`, `y`, `dose_rate`. -/
structure Meas where
  x : ℚ
  y : ℚ
  dose_rate : ℚ
deriving DecidableEq

/-- Minimum of a column, as `pandas` `.min()` over a nonempty column
(the empty case is junk-valued and only reached on an empty table). -/
def colMin (l : List ℚ) : ℚ :=
  match l with
  | [] => 0
  | a :: t => t.foldl min a

/-- Maximum of a column, as `pandas` `.max()`. -/
def colMax (l : List ℚ) : ℚ :=
  match l with
  | [] => 0
  | a :: t => t.foldl max a

/-- `boundary_points` from app.py: rows whose `x` lies in
`[x_min, x_min+2]` or `[x_max-2, x_max]`, or whose `y` lies in
`[y_min, y_min+2]` or `[y_max-2, y_max]` (`Series.between` is inclusive). -/
def boundary_points (ms : List Meas) : List Meas :=
  ms.filter (fun p => decide
    ((colMin (ms.map Meas.x) ≤ p.x ∧ p.x ≤ colMin (ms.map Meas.x) + 2) ∨
     (colMax (ms.map Meas.x) - 2 ≤ p.x ∧ p.x ≤ colMax (ms.map Meas.x)) ∨
     (colMin (ms.map Meas.y) ≤ p.y ∧ p.y ≤ colMin (ms.map Meas.y) + 2) ∨
     (colMax (ms.map Meas.y) - 2 ≤ p.y ∧ p.y ≤ colMax (ms.map Meas.y))))

/-- `max_boundary_dose` from app.py:
`boundary_points['dose_rate'].max() if not boundary_points.empty else 0`. -/
def max_boundary_dose (ms : List Meas) : ℚ :=
  match boundary_points ms with
  | [] => 0
  | p :: ps => (ps.map Meas.dose_rate).foldl max p.dose_rate

/-- The `LEAKAGE DETECTED` branch condition of app.py:
`max_boundary_dose > 0.5`. -/
def leakage_detected (ms : List Meas) : Bool :=
  decide ((0.5 : ℚ) < max_boundary_dose ms)

/-- The claim's description of an edge point: within 2 m of the bounding-box
edge of the surveyed area, in `x` or in `y`. -/
def nearBoundingBoxEdge (ms : List Meas) (p : Meas) : Prop :=
  p.x ≤ colMin (ms.map Meas.x) + 2 ∨ colMax (ms.map Meas.x) - 2 ≤ p.x ∨
  p.y ≤ colMin (ms.map Meas.y) + 2 ∨ colMax (ms.map Meas.y) - 2 ≤ p.y

/-! ### Helper lemmas about `classify_zone` and the report counts -/

lemma zone_limit_Public_lt_Supervised : zone_limit_Public < zone_limit_Supervised := by
  norm_num [zone_limit_Public, zone_limit_Supervised]

lemma zone_limit_Supervised_lt_Controlled : zone_limit_Supervised < zone_limit_Controlled := by
  norm_num [zone_limit_Supervised, zone_limit_Controlled]

lemma zone_limit_Public_lt_Controlled : zone_limit_Public < zone_limit_Controlled :=
  zone_limit_Public_lt_Supervised.trans zone_limit_Supervised_lt_Controlled

lemma classify_zone_fst_public (d : ℚ) :
    (classify_zone d).1 = "Public" ↔ d < zone_limit_Public := by
  unfold classify_zone
  split_ifs with h1 h2 h3
  · exact iff_of_true rfl h1
  · exact iff_of_false (by decide) h1
  · exact iff_of_false (by decide) h1
  · exact iff_of_false (by decide) h1

lemma classify_zone_fst_supervised (d : ℚ) :
    (classify_zone d).1 = "Supervised" ↔ zone_limit_Public ≤ d ∧ d < zone_limit_Supervised := by
  unfold classify_zone
  split_ifs with h1 h2 h3
  · exact iff_of_false (by decide) (fun hc => not_le.mpr h1 hc.1)
  · exact iff_of_true rfl ⟨not_lt.mp h1, h2⟩
  · exact iff_of_false (by decide) (fun hc => h2 hc.2)
  · exact iff_of_false (by decide) (fun hc => h2 hc.2)

lemma classify_zone_fst_controlled (d : ℚ) :
    (classify_zone d).1 = "Controlled" ↔ zone_limit_Supervised ≤ d ∧ d < zone_limit_Controlled := by
  unfold classify_zone
  split_ifs with h1 h2 h3
  · exact iff_of_false (by decide)
      (fun hc => not_le.mpr (h1.trans zone_limit_Public_lt_Supervised) hc.1)
  · exact iff_of_false (by decide) (fun hc => not_le.mpr h2 hc.1)
  · exact iff_of_true rfl ⟨not_lt.mp h2, h3⟩
  · exact iff_of_false (by decide) (fun hc => h3 hc.2)

lemma classify_zone_fst_restricted (d : ℚ) :
    (classify_zone d).1 = "Restricted" ↔ zone_limit_Controlled ≤ d := by
  unfold classify_zone
  split_ifs with h1 h2 h3
  · exact iff_of_false (by decide) (not_le.mpr (h1.trans zone_limit_Public_lt_Controlled))
  · exact iff_of_false (by decide) (not_le.mpr (h2.trans zone_limit_Supervised_lt_Controlled))
  · exact iff_of_false (by decide) (not_le.mpr h3)
  · exact iff_of_true rfl (not_lt.mp h3)

lemma count_Public_cons (d : ℚ) (t : List ℚ) :
    count_Public (d :: t) = (if d < zone_limit_Public then 1 else 0) + count_Public t := by
  by_cases h : d < zone_limit_Public
  · simp [count_Public, List.filter_cons, h, Nat.add_comm]
  · simp [count_Public, List.filter_cons, h]

lemma count_Supervised_cons (d : ℚ) (t : List ℚ) :
    count_Supervised (d :: t) =
      (if zone_limit_Public ≤ d ∧ d < zone_limit_Supervised then 1 else 0) +
        count_Supervised t := by
  by_cases h : zone_limit_Public ≤ d ∧ d < zone_limit_Supervised
  · simp [count_Supervised, List.filter_cons, h, Nat.add_comm]
  · simp [count_Supervised, List.filter_cons, h]

lemma count_Controlled_cons (d : ℚ) (t : List ℚ) :
    count_Controlled (d :: t) =
      (if zone_limit_Supervised ≤ d ∧ d < zone_limit_Controlled then 1 else 0) +
        count_Controlled t := by
  by_cases h : zone_limit_Supervised ≤ d ∧ d < zone_limit_Controlled
  · simp [count_Controlled, List.filter_cons, h, Nat.add_comm]
  · simp [count_Controlled, List.filter_cons, h]

lemma count_Restricted_cons (d : ℚ) (t : List ℚ) :
    count_Restricted (d :: t) =
      (if zone_limit_Controlled ≤ d then 1 else 0) + count_Restricted t := by
  by_cases h : zone_limit_Controlled ≤ d
  · simp [count_Restricted, List.filter_cons, h, Nat.add_comm]
  · simp [count_Restricted, List.filter_cons, h]

lemma zone_counts_sum (ms : List ℚ) :
    count_Public ms + count_Supervised ms + count_Controlled ms + count_Restricted ms =
      ms.length := by
  induction ms with
  | nil => rfl
  | cons d t ih =>
    rw [count_Public_cons, count_Supervised_cons, count_Controlled_cons,
      count_Restricted_cons, List.length_cons]
    rcases lt_or_le d zone_limit_Public with h1 | h1
    · rw [if_pos h1, if_neg (fun hc => not_le.mpr h1 hc.1),
        if_neg (fun hc => not_le.mpr (h1.trans zone_limit_Public_lt_Supervised) hc.1),
        if_neg (not_le.mpr (h1.trans zone_limit_Public_lt_Controlled))]
      omega
    · rcases lt_or_le d zone_limit_Supervised with h2 | h2
      · rw [if_neg (not_lt.mpr h1), if_pos ⟨h1, h2⟩,
          if_neg (fun hc => not_le.mpr h2 hc.1),
          if_neg (not_le.mpr (h2.trans zone_limit_Supervised_lt_Controlled))]
        omega
      · rcases lt_or_le d zone_limit_Controlled with h3 | h3
        · rw [if_neg (not_lt.mpr (zone_limit_Public_lt_Supervised.le.trans h2)),
            if_neg (fun hc => not_lt.mpr h2 hc.2), if_pos ⟨h2, h3⟩,
            if_neg (not_le.mpr h3)]
          omega
        · rw [if_neg (not_lt.mpr (zone_limit_Public_lt_Controlled.le.trans h3)),
            if_neg (fun hc => not_lt.mpr (zone_limit_Supervised_lt_Controlled.le.trans h3) hc.2),
            if_neg (fun hc => not_lt.mpr h3 hc.2), if_pos h3]
          omega

/-- C1: for every dose rate `d ≥ 0`, `classify_zone` returns exactly one of the
four zone labels, and the default bands partition `[0, ∞)`: `Public` iff
`d < 0.5`, `Supervised` iff `0.5 ≤ d < 7.5`, `Controlled` iff `7.5 ≤ d < 25`,
`Restricted` iff `d ≥ 25`, each boundary belonging to the higher band. -/
theorem claim_C1 (d : ℚ) (hd : 0 ≤ d) :
    ((classify_zone d).1 = "Public" ∨ (classify_zone d).1 = "Supervised" ∨
      (classify_zone d).1 = "Controlled" ∨ (classify_zone d).1 = "Restricted") ∧
    ((classify_zone d).1 = "Public" ↔ d < 0.5) ∧
    ((classify_zone d).1 = "Supervised" ↔ 0.5 ≤ d ∧ d < 7.5) ∧
    ((classify_zone d).1 = "Controlled" ↔ 7.5 ≤ d ∧ d < 25) ∧
    ((classify_zone d).1 = "Restricted" ↔ 25 ≤ d) := by
  refine ⟨?_, classify_zone_fst_public d, classify_zone_fst_supervised d,
    classify_zone_fst_controlled d, classify_zone_fst_restricted d⟩
  unfold classify_zone
  split_ifs <;> simp

/-- Witness for C1 at the band boundary `d = 0.5` (belongs to `Supervised`). -/
theorem claim_C1_witness :
    (0 : ℚ) ≤ 0.5 ∧
    (((classify_zone 0.5).1 = "Public" ∨ (classify_zone 0.5).1 = "Supervised" ∨
      (classify_zone 0.5).1 = "Controlled" ∨ (classify_zone 0.5).1 = "Restricted") ∧
    ((classify_zone 0.5).1 = "Public" ↔ (0.5 : ℚ) < 0.5) ∧
    ((classify_zone 0.5).1 = "Supervised" ↔ (0.5 : ℚ) ≤ 0.5 ∧ (0.5 : ℚ) < 7.5) ∧
    ((classify_zone 0.5).1 = "Controlled" ↔ (7.5 : ℚ) ≤ 0.5 ∧ (0.5 : ℚ) < 25) ∧
    ((classify_zone 0.5).1 = "Restricted" ↔ (25 : ℚ) ≤ 0.5)) :=
  ⟨by norm_num, claim_C1 0.5 (by norm_num)⟩

/-- C10: the per-zone counts computed by `generate_compliance_report` through
its own threshold filters agree with `classify_zone` — each zone's count is
the number of measurements whose dose rate `classify_zone` maps to that label,
and the four counts sum to the number of measurements. -/
theorem claim_C10 (ms : List ℚ) :
    count_Public ms = (ms.filter (fun d => decide ((classify_zone d).1 = "Public"))).length ∧
    count_Supervised ms =
      (ms.filter (fun d => decide ((classify_zone d).1 = "Supervised"))).length ∧
    count_Controlled ms =
      (ms.filter (fun d => decide ((classify_zone d).1 = "Controlled"))).length ∧
    count_Restricted ms =
      (ms.filter (fun d => decide ((classify_zone d).1 = "Restricted"))).length ∧
    count_Public ms + count_Supervised ms + count_Controlled ms + count_Restricted ms =
      ms.length := by
  refine ⟨?_, ?_, ?_, ?_, zone_counts_sum ms⟩
  · unfold count_Public
    congr 1
    exact List.filter_congr
      (fun d _ => decide_eq_decide.mpr (classify_zone_fst_public d).symm)
  · unfold count_Supervised
    congr 1
    exact List.filter_congr
      (fun d _ => decide_eq_decide.mpr (classify_zone_fst_supervised d).symm)
  · unfold count_Controlled
    congr 1
    exact List.filter_congr
      (fun d _ => decide_eq_decide.mpr (classify_zone_fst_controlled d).symm)
  · unfold count_Restricted
    congr 1
    exact List.filter_congr
      (fun d _ => decide_eq_decide.mpr (classify_zone_fst_restricted d).symm)

/-! ### Fold lemmas for column minima / maxima -/

lemma foldl_min_le (l : List ℚ) :
    ∀ a : ℚ, l.foldl min a ≤ a ∧ ∀ v ∈ l, l.foldl min a ≤ v := by
  induction l with
  | nil => intro a; exact ⟨le_refl a, by simp⟩
  | cons b t ih =>
    intro a
    simp only [List.foldl_cons]
    refine ⟨(ih (min a b)).1.trans (min_le_left a b), ?_⟩
    intro v hv
    rcases List.mem_cons.mp hv with rfl | hv'
    · exact (ih (min a v)).1.trans (min_le_right a v)
    · exact (ih (min a b)).2 v hv'

lemma le_foldl_max (l : List ℚ) :
    ∀ a : ℚ, a ≤ l.foldl max a ∧ ∀ v ∈ l, v ≤ l.foldl max a := by
  induction l with
  | nil => intro a; exact ⟨le_refl a, by simp⟩
  | cons b t ih =>
    intro a
    simp only [List.foldl_cons]
    refine ⟨(le_max_left a b).trans (ih (max a b)).1, ?_⟩
    intro v hv
    rcases List.mem_cons.mp hv with rfl | hv'
    · exact (le_max_right a v).trans (ih (max a v)).1
    · exact (ih (max a b)).2 v hv'

lemma lt_foldl_max_iff (c : ℚ) (l : List ℚ) :
    ∀ a : ℚ, (c < l.foldl max a ↔ c < a ∨ ∃ v ∈ l, c < v) := by
  induction l with
  | nil => intro a; simp
  | cons b t ih =>
    intro a
    simp only [List.foldl_cons]
    rw [ih (max a b)]
    simp only [lt_max_iff, List.mem_cons]
    constructor
    · rintro ((h | h) | ⟨v, hv, h⟩)
      · exact Or.inl h
      · exact Or.inr ⟨b, Or.inl rfl, h⟩
      · exact Or.inr ⟨v, Or.inr hv, h⟩
    · rintro (h | ⟨v, rfl | hv, h⟩)
      · exact Or.inl (Or.inl h)
      · exact Or.inl (Or.inr h)
      · exact Or.inr ⟨v, hv, h⟩

lemma colMin_le (l : List ℚ) (v : ℚ) (hv : v ∈ l) : colMin l ≤ v := by
  cases l with
  | nil => simp at hv
  | cons a t =>
    rcases List.mem_cons.mp hv with rfl | hv'
    · exact (foldl_min_le t v).1
    · exact (foldl_min_le t a).2 v hv'

lemma le_colMax (l : List ℚ) (v : ℚ) (hv : v ∈ l) : v ≤ colMax l := by
  cases l with
  | nil => simp at hv
  | cons a t =>
    rcases List.mem_cons.mp hv with rfl | hv'
    · exact (le_foldl_max t v).1
    · exact (le_foldl_max t a).2 v hv'

lemma mem_boundary_points_iff (ms : List Meas) (q : Meas) :
    q ∈ boundary_points ms ↔ q ∈ ms ∧ nearBoundingBoxEdge ms q := by
  unfold boundary_points
  rw [List.mem_filter, decide_eq_true_eq]
  constructor
  · rintro ⟨hq, hc⟩
    refine ⟨hq, ?_⟩
    unfold nearBoundingBoxEdge
    rcases hc with ⟨_, h⟩ | ⟨h, _⟩ | ⟨_, h⟩ | ⟨h, _⟩
    · exact Or.inl h
    · exact Or.inr (Or.inl h)
    · exact Or.inr (Or.inr (Or.inl h))
    · exact Or.inr (Or.inr (Or.inr h))
  · rintro ⟨hq, hne⟩
    refine ⟨hq, ?_⟩
    have hx1 : colMin (ms.map Meas.x) ≤ q.x := colMin_le _ _ (List.mem_map_of_mem Meas.x hq)
    have hx2 : q.x ≤ colMax (ms.map Meas.x) := le_colMax _ _ (List.mem_map_of_mem Meas.x hq)
    have hy1 : colMin (ms.map Meas.y) ≤ q.y := colMin_le _ _ (List.mem_map_of_mem Meas.y hq)
    have hy2 : q.y ≤ colMax (ms.map Meas.y) := le_colMax _ _ (List.mem_map_of_mem Meas.y hq)
    rcases hne with h | h | h | h
    · exact Or.inl ⟨hx1, h⟩
    · exact Or.inr (Or.inl ⟨h, hx2⟩)
    · exact Or.inr (Or.inr (Or.inl ⟨hy1, h⟩))
    · exact Or.inr (Or.inr (Or.inr ⟨h, hy2⟩))

/-- C8: the boundary-leak check of app.py reports `LEAKAGE DETECTED` iff some
measurement point within 2 m of the bounding-box edge of the surveyed area (in
`x` or `y`) has a dose rate exceeding the Public limit of 0.5 µSv/hr; with no
such exceeding edge point it takes the `CONTAINMENT SECURE` branch. -/
theorem claim_C8 (ms : List Meas) :
    leakage_detected ms = true ↔
      ∃ p ∈ ms, nearBoundingBoxEdge ms p ∧ (0.5 : ℚ) < p.dose_rate := by
  unfold leakage_detected
  rw [decide_eq_true_eq]
  have hmax : (0.5 : ℚ) < max_boundary_dose ms ↔
      ∃ q ∈ boundary_points ms, (0.5 : ℚ) < q.dose_rate := by
    rcases hb : boundary_points ms with _ | ⟨p, ps⟩
    · simp only [max_boundary_dose, hb]
      constructor
      · intro h; norm_num at h
      · rintro ⟨q, hq, -⟩; simp at hq
    · simp only [max_boundary_dose, hb]
      rw [lt_foldl_max_iff (0.5 : ℚ) (ps.map Meas.dose_rate) p.dose_rate]
      constructor
      · rintro (h | ⟨v, hv, h⟩)
        · exact ⟨p, List.mem_cons_self p ps, h⟩
        · obtain ⟨q, hq, rfl⟩ := List.mem_map.mp hv
          exact ⟨q, List.mem_cons_of_mem p hq, h⟩
      · rintro ⟨q, hq, h⟩
        rcases List.mem_cons.mp hq with rfl | hq'
        · exact Or.inl h
        · exact Or.inr ⟨q.dose_rate, List.mem_map_of_mem Meas.dose_rate hq', h⟩
  rw [hmax]
  constructor
  · rintro ⟨q, hq, hlt⟩
    obtain ⟨hqm, hne⟩ := (mem_boundary_points_iff ms q).mp hq
    exact ⟨q, hqm, hne, hlt⟩
  · rintro ⟨q, hqm, hne, hlt⟩
    exact ⟨q, (mem_boundary_points_iff ms q).mpr ⟨hqm, hne⟩, hlt⟩

/-! ### Material database (mu_values.py, `MATERIAL_DATA`)

Each entry of the source dictionary carries `display_name`, `density`,
`energies_MeV`, `mu_cm-1` (spelled `mu_cm1` here), `H_fraction`, `B_fraction`,
`cost_per_m3`, `color`, plus prose fields (`role`, `notes`) that no computation
reads and that are omitted from the embedding. -/

structure Material where
  display_name : String
  density : ℚ
  energies_MeV : List ℚ
  mu_cm1 : List ℚ
  H_fraction : ℚ
  B_fraction : ℚ
  cost_per_m3 : ℚ
  color : String
deriving DecidableEq

def concrete : Material :=
  { display_name := "Ordinary Concrete"
    density := 2.35
    energies_MeV := [0.1, 0.2, 0.5, 1.0, 2.0, 5.0, 10.0]
    mu_cm1 := [0.402, 0.287, 0.211, 0.153, 0.116, 0.078, 0.059]
    H_fraction := 0.010
    B_fraction := 0.000
    cost_per_m3 := 190
    color := "#95A5A6" }

def heavy_concrete : Material :=
  { display_name := "Heavy Concrete (Barite)"
    density := 3.45
    energies_MeV := [0.1, 0.2, 0.5, 1.0, 2.0, 5.0, 10.0]
    mu_cm1 := [1.029, 0.518, 0.319, 0.211, 0.164, 0.111, 0.087]
    H_fraction := 0.008
    B_fraction := 0.000
    cost_per_m3 := 1200
    color := "#717D7E" }

def steel : Material :=
  { display_name := "Steel (Iron)"
    density := 7.9
    energies_MeV := [0.1, 0.2, 0.5, 1.0, 2.0, 5.0, 10.0]
    mu_cm1 := [2.912, 1.149, 0.662, 0.474, 0.336, 0.248, 0.236]
    H_fraction := 0.000
    B_fraction := 0.000
    cost_per_m3 := 8000
    color := "#AAB7B8" }

def lead : Material :=
  { display_name := "Lead"
    density := 11.34
    energies_MeV := [0.1, 0.2, 0.5, 1.0, 2.0, 5.0, 10.0]
    mu_cm1 := [62.93, 11.33, 1.826, 0.805, 0.518, 0.483, 0.559]
    H_fraction := 0.000
    B_fraction := 0.000
    cost_per_m3 := 21000
    color := "#566573" }

def bentonite_slurry : Material :=
  { display_name := "Bentonite Slurry (~60% water)"
    density := 1.45
    energies_MeV := [0.1, 0.2, 0.5, 1.0, 2.0, 5.0, 10.0]
    mu_cm1 := [0.248, 0.199, 0.140, 0.103, 0.071, 0.044, 0.032]
    H_fraction := 0.067
    B_fraction := 0.002
    cost_per_m3 := 160
    color := "#A9784E" }

def borated_bentonite : Material :=
  { display_name := "Borated Bentonite (+5% borax)"
    density := 1.50
    energies_MeV := [0.1, 0.2, 0.5, 1.0, 2.0, 5.0, 10.0]
    mu_cm1 := [0.257, 0.206, 0.145, 0.106, 0.074, 0.045, 0.033]
    H_fraction := 0.068
    B_fraction := 0.022
    cost_per_m3 := 650
    color := "#7D6608" }

def polyethylene : Material :=
  { display_name := "High-Density Polyethylene (HDPE)"
    density := 0.95
    energies_MeV := [0.1, 0.2, 0.5, 1.0, 2.0, 5.0, 10.0]
    mu_cm1 := [0.186, 0.138, 0.092, 0.069, 0.042, 0.027, 0.019]
    H_fraction := 0.143
    B_fraction := 0.000
    cost_per_m3 := 900
    color := "#F7DC6F" }

def earth_soil : Material :=
  { display_name := "Compacted Earth / Soil"
    density := 1.80
    energies_MeV := [0.1, 0.2, 0.5, 1.0, 2.0, 5.0, 10.0]
    mu_cm1 := [0.308, 0.220, 0.161, 0.120, 0.089, 0.060, 0.045]
    H_fraction := 0.020
    B_fraction := 0.000
    cost_per_m3 := 15
    color := "#6E2C00" }

/-- `MATERIAL_DATA`, in the source's insertion order. -/
def MATERIAL_DATA : List (String × Material) :=
  [("concrete", concrete),
   ("heavy_concrete", heavy_concrete),
   ("steel", steel),
   ("lead", lead),
   ("bentonite_slurry", bentonite_slurry),
   ("borated_bentonite", borated_bentonite),
   ("polyethylene", polyethylene),
   ("earth_soil", earth_soil)]

/-- Well-formedness facts about a material table that the source data
satisfies: strictly increasing energies, positive energies and mu values, the
two columns of equal length, and at least one row. -/
def wellFormedMaterial (m : Material) : Prop :=
  m.energies_MeV.Pairwise (· < ·) ∧ (∀ E ∈ m.energies_MeV, 0 < E) ∧
    (∀ μ ∈ m.mu_cm1, 0 < μ) ∧ m.energies_MeV.length = m.mu_cm1.length ∧
    m.energies_MeV ≠ []

lemma material_data_wellFormed : ∀ p ∈ MATERIAL_DATA, wellFormedMaterial p.2 := by
  intro p hp
  simp only [MATERIAL_DATA, List.mem_cons, List.not_mem_nil, or_false] at hp
  rcases hp with rfl | rfl | rfl | rfl | rfl | rfl | rfl | rfl <;>
    norm_num [wellFormedMaterial, concrete, heavy_concrete, steel, lead,
      bentonite_slurry, borated_bentonite, polyethylene, earth_soil,
      List.pairwise_cons, List.forall_mem_cons]
  all_goals exact List.cons_ne_nil _ _

/-! ### Log-log interpolation (mu_values.py, `get_mu`) -/

/-- One walk step of `scipy.interpolate.interp1d(kind='linear')` over sorted
nodes: given the previous node `p` and the remaining nodes, return the linear
interpolant of the segment containing `x`; past the last node hold the last
value (the upper `fill_value` of `get_mu`). -/
noncomputable def interpSeg : ℝ × ℝ → List (ℝ × ℝ) → ℝ → ℝ
  | p, [], _ => p.2
  | p, q :: rest, x =>
    if x ≤ q.1 then p.2 + (q.2 - p.2) * (x - p.1) / (q.1 - p.1)
    else interpSeg q rest x

/-- `interp1d(log_E, log_mu, kind='linear', bounds_error=False,
fill_value=(log_mu[0], log_mu[-1]))` evaluated at `x`: below the first node
hold the first value (the lower `fill_value`), otherwise walk the segments. -/
noncomputable def interp : List (ℝ × ℝ) → ℝ → ℝ
  | [], _ => 0
  | p :: rest, x => if x ≤ p.1 then p.2 else interpSeg p rest x

/-- One `(np.log(E), np.log(mu))` node. -/
noncomputable def logPair (p : ℚ × ℚ) : ℝ × ℝ :=
  (Real.log (p.1 : ℝ), Real.log (p.2 : ℝ))

/-- `log_E = np.log(data['energies_MeV'])`, `log_mu = np.log(data['mu_cm-1'])`
as a single node list. -/
noncomputable def logTable (m : Material) : List (ℝ × ℝ) :=
  (m.energies_MeV.zip m.mu_cm1).map logPair

/-- The numeric body of `get_mu`:
`float(np.exp(interp_fn(np.log(energy_MeV))))`. -/
noncomputable def muOf (m : Material) (energy_MeV : ℝ) : ℝ :=
  Real.exp (interp (logTable m) (Real.log energy_MeV))

/-- The only error `get_mu` raises:
`ValueError(f"Unknown material '...'")` for a key not in `MATERIAL_DATA`. -/
inductive MuError
  | unknownMaterial : String → MuError
deriving DecidableEq

/-- `get_mu(material_key, energy_MeV)` with its error channel made explicit:
the membership check on `MATERIAL_DATA` is the sole raise site. -/
noncomputable def get_mu (material_key : String) (energy_MeV : ℝ) : Except MuError ℝ :=
  match MATERIAL_DATA.lookup material_key with
  | none => .error (.unknownMaterial material_key)
  | some m => .ok (muOf m energy_MeV)

/-- `required_thickness(material_key, source_dose, target_dose, energy_MeV)`:
returns `0.0` when `source_dose <= target_dose`, otherwise
`-np.log(target_dose / source_dose) / get_mu(...)`. -/
noncomputable def required_thickness (material_key : String)
    (source_dose target_dose energy_MeV : ℝ) : Except MuError ℝ :=
  if source_dose ≤ target_dose then .ok 0
  else (get_mu material_key energy_MeV).map
    (fun mu => -Real.log (target_dose / source_dose) / mu)

/-! ### Interpolation lemmas -/

lemma interpSeg_node (x y : ℝ) :
    ∀ (l : List (ℝ × ℝ)) (p : ℝ × ℝ),
      (p :: l).Pairwise (fun a b => a.1 < b.1) → (x, y) ∈ l → interpSeg p l x = y := by
  intro l
  induction l with
  | nil => intro p _ hmem; simp at hmem
  | cons q rest ih =>
    intro p hp hmem
    obtain ⟨hall, htail⟩ := List.pairwise_cons.mp hp
    rcases List.mem_cons.mp hmem with hq | hrest
    · have hpq : p.1 < q.1 := hall q (List.mem_cons_self q rest)
      subst hq
      have hne : x - p.1 ≠ 0 := sub_ne_zero.mpr hpq.ne'
      show (if x ≤ x then p.2 + (y - p.2) * (x - p.1) / (x - p.1) else interpSeg (x, y) rest x) = y
      rw [if_pos le_rfl, mul_div_assoc, div_self hne, mul_one]
      ring
    · have hq1 : q.1 < x := (List.pairwise_cons.mp htail).1 (x, y) hrest
      show (if x ≤ q.1 then p.2 + (q.2 - p.2) * (x - p.1) / (q.1 - p.1)
        else interpSeg q rest x) = y
      rw [if_neg (not_le.mpr hq1)]
      exact ih q htail hrest

lemma interp_node (l : List (ℝ × ℝ)) (hl : l.Pairwise (fun a b => a.1 < b.1))
    (x y : ℝ) (hmem : (x, y) ∈ l) : interp l x = y := by
  cases l with
  | nil => simp at hmem
  | cons p rest =>
    rcases List.mem_cons.mp hmem with hp | hrest
    · subst hp
      show (if x ≤ x then y else interpSeg (x, y) rest x) = y
      rw [if_pos le_rfl]
    · have hx : p.1 < x := (List.pairwise_cons.mp hl).1 (x, y) hrest
      show (if x ≤ p.1 then p.2 else interpSeg p rest x) = y
      rw [if_neg (not_le.mpr hx)]
      exact interpSeg_node x y rest p hl hrest

lemma interpSeg_above (x : ℝ) :
    ∀ (l : List (ℝ × ℝ)) (p : ℝ × ℝ), (∀ q ∈ l, q.1 < x) →
      interpSeg p l x = ((p :: l).getLast (List.cons_ne_nil p l)).2 := by
  intro l
  induction l with
  | nil => intro p _; rfl
  | cons q rest ih =>
    intro p h
    have hq : q.1 < x := h q (List.mem_cons_self q rest)
    show (if x ≤ q.1 then p.2 + (q.2 - p.2) * (x - p.1) / (q.1 - p.1)
      else interpSeg q rest x) = ((p :: q :: rest).getLast (List.cons_ne_nil p (q :: rest))).2
    rw [if_neg (not_le.mpr hq), ih q (fun r hr => h r (List.mem_cons_of_mem q hr))]
    congr 1

lemma interp_above (l : List (ℝ × ℝ)) (hne : l ≠ []) (x : ℝ)
    (h : ∀ p ∈ l, p.1 < x) : interp l x = (l.getLast hne).2 := by
  cases l with
  | nil => exact absurd rfl hne
  | cons p rest =>
    have hp : p.1 < x := h p (List.mem_cons_self p rest)
    show (if x ≤ p.1 then p.2 else interpSeg p rest x) = ((p :: rest).getLast hne).2
    rw [if_neg (not_le.mpr hp)]
    exact interpSeg_above x rest p (fun q hq => h q (List.mem_cons_of_mem p hq))

lemma zip_map_fst_pairwise (es ms : List ℚ) (hlen : es.length = ms.length)
    (hsort : es.Pairwise (· < ·)) :
    (es.zip ms).Pairwise (fun p q => p.1 < q.1) := by
  have hfst : (es.zip ms).map Prod.fst = es := List.map_fst_zip es ms (le_of_eq hlen)
  have h2 := hsort
  rw [← hfst] at h2
  exact (List.pairwise_map).mp h2

lemma logTable_pairwise (m : Material) (hw : wellFormedMaterial m) :
    (logTable m).Pairwise (fun a b => a.1 < b.1) := by
  obtain ⟨hsort, hEpos, -, hlen, -⟩ := hw
  have hzip := zip_map_fst_pairwise m.energies_MeV m.mu_cm1 hlen hsort
  unfold logTable
  rw [List.pairwise_map]
  refine hzip.imp_of_mem ?_
  rintro ⟨a, b⟩ ⟨c, r⟩ hp hq hlt
  have hapos : (0 : ℚ) < a := hEpos a (List.of_mem_zip hp).1
  show Real.log (a : ℝ) < Real.log (c : ℝ)
  exact Real.log_lt_log (by exact_mod_cast hapos) (by exact_mod_cast hlt)

lemma getLast?_map_logPair :
    ∀ l : List (ℚ × ℚ), (l.map logPair).getLast? = l.getLast?.map logPair := by
  intro l
  induction l with
  | nil => rfl
  | cons a t ih =>
    cases t with
    | nil => rfl
    | cons b t' =>
      show (logPair a :: logPair b :: t'.map logPair).getLast? =
        ((a :: b :: t').getLast?).map logPair
      rw [List.getLast?_cons_cons, List.getLast?_cons_cons]
      exact ih

lemma zip_getLast? : ∀ (es ms : List ℚ), es.length = ms.length → es ≠ [] →
    ∃ E μ, es.getLast? = some E ∧ ms.getLast? = some μ ∧
      (es.zip ms).getLast? = some (E, μ)
  | [], _, _, h => absurd rfl h
  | E :: es', [], hlen, _ => by simp at hlen
  | [E], μ :: ms', hlen, _ => by
    have hms : ms' = [] := by
      cases ms' with
      | nil => rfl
      | cons b t =>
        simp only [List.length_cons, List.length_nil] at hlen
        omega
    subst hms
    exact ⟨E, μ, rfl, rfl, rfl⟩
  | E1 :: E2 :: es'', μ1 :: ms', hlen, _ => by
    have hlen' : (E2 :: es'').length = ms'.length := by
      simp only [List.length_cons] at hlen ⊢
      omega
    have hms' : ms' ≠ [] := by
      intro h
      rw [h] at hlen'
      simp only [List.length_cons, List.length_nil] at hlen'
      omega
    obtain ⟨El, μl, h1, h2, h3⟩ :=
      zip_getLast? (E2 :: es'') ms' hlen' (List.cons_ne_nil E2 es'')
    refine ⟨El, μl, ?_, ?_, ?_⟩
    · rw [List.getLast?_cons_cons]
      exact h1
    · cases ms' with
      | nil => exact absurd rfl hms'
      | cons μ2 ms'' =>
        rw [List.getLast?_cons_cons]
        exact h2
    · show ((E1, μ1) :: (E2 :: es'').zip ms').getLast? = some (El, μl)
      cases hz : (E2 :: es'').zip ms' with
      | nil =>
        rw [hz] at h3
        simp at h3
      | cons z zs =>
        rw [List.getLast?_cons_cons]
        rw [hz] at h3
        exact h3

lemma mem_of_getLast?_eq : ∀ (l : List ℚ) (a : ℚ), l.getLast? = some a → a ∈ l
  | [], a, h => by simp at h
  | [b], a, h => by
    simp at h
    exact List.mem_singleton.mpr h.symm
  | b :: c :: t, a, h => by
    rw [List.getLast?_cons_cons] at h
    exact List.mem_cons_of_mem b (mem_of_getLast?_eq (c :: t) a h)

/-- C2: for every registered material, `get_mu`'s interpolant evaluated at a
tabulated energy returns exactly the tabulated mu value, and below (above) the
tabulated range it returns the first (last) tabulated mu value — a clamped
boundary-value hold, with no log-log slope extrapolation. -/
theorem claim_C2 (k : String) (m : Material) (hm : (k, m) ∈ MATERIAL_DATA) :
    (∀ E μ, (E, μ) ∈ m.energies_MeV.zip m.mu_cm1 → muOf m (E : ℝ) = (μ : ℝ)) ∧
    (∀ e : ℝ, 0 < e → (∀ E ∈ m.energies_MeV, e < (E : ℝ)) →
      ∃ μ0, m.mu_cm1.head? = some μ0 ∧ muOf m e = (μ0 : ℝ)) ∧
    (∀ e : ℝ, (∀ E ∈ m.energies_MeV, (E : ℝ) < e) →
      ∃ μl, m.mu_cm1.getLast? = some μl ∧ muOf m e = (μl : ℝ)) := by
  obtain ⟨hsort, hEpos, hμpos, hlen, hne⟩ := material_data_wellFormed (k, m) hm
  refine ⟨?_, ?_, ?_⟩
  · intro E μ hmem
    have hmem' : (Real.log (E : ℝ), Real.log (μ : ℝ)) ∈ logTable m :=
      List.mem_map_of_mem logPair hmem
    unfold muOf
    rw [interp_node (logTable m)
      (logTable_pairwise m ⟨hsort, hEpos, hμpos, hlen, hne⟩) _ _ hmem']
    exact Real.exp_log (by exact_mod_cast hμpos μ (List.of_mem_zip hmem).2)
  · intro e he hlt
    cases hE : m.energies_MeV with
    | nil => exact absurd hE hne
    | cons E0 es' =>
      cases hM : m.mu_cm1 with
      | nil =>
        rw [hE, hM] at hlen
        simp at hlen
      | cons μ0 ms' =>
        refine ⟨μ0, rfl, ?_⟩
        have htab : logTable m = logPair (E0, μ0) :: (es'.zip ms').map logPair := by
          unfold logTable
          rw [hE, hM]
          rfl
        have hE0mem : E0 ∈ m.energies_MeV := by
          rw [hE]
          exact List.mem_cons_self E0 es'
        have hle : Real.log e ≤ (logPair (E0, μ0)).1 :=
          le_of_lt (Real.log_lt_log he (hlt E0 hE0mem))
        unfold muOf
        rw [htab]
        show Real.exp (if Real.log e ≤ (logPair (E0, μ0)).1 then (logPair (E0, μ0)).2
          else interpSeg (logPair (E0, μ0)) ((es'.zip ms').map logPair) (Real.log e)) = (μ0 : ℝ)
        rw [if_pos hle]
        have hμ0mem : μ0 ∈ m.mu_cm1 := by
          rw [hM]
          exact List.mem_cons_self μ0 ms'
        exact Real.exp_log (by exact_mod_cast hμpos μ0 hμ0mem)
  · intro e hgt
    obtain ⟨El, μl, hEl, hμl, hzl⟩ := zip_getLast? m.energies_MeV m.mu_cm1 hlen hne
    refine ⟨μl, hμl, ?_⟩
    have hlt_log : ∀ p ∈ logTable m, p.1 < Real.log e := by
      intro p hp
      obtain ⟨q, hq, rfl⟩ := List.mem_map.mp hp
      obtain ⟨a, b⟩ := q
      have ha : a ∈ m.energies_MeV := (List.of_mem_zip hq).1
      have hapos : (0 : ℚ) < a := hEpos a ha
      show Real.log (a : ℝ) < Real.log e
      exact Real.log_lt_log (by exact_mod_cast hapos) (hgt a ha)
    have htab_ne : logTable m ≠ [] := by
      intro h
      have hz : m.energies_MeV.zip m.mu_cm1 = [] := List.map_eq_nil_iff.mp h
      rw [hz] at hzl
      simp at hzl
    unfold muOf
    rw [interp_above (logTable m) htab_ne (Real.log e) hlt_log]
    have hlast : (logTable m).getLast? = some (logPair (El, μl)) := by
      unfold logTable
      rw [getLast?_map_logPair (m.energies_MeV.zip m.mu_cm1), hzl]
      rfl
    have hlast' : (logTable m).getLast htab_ne = logPair (El, μl) := by
      have h2 := List.getLast?_eq_getLast (logTable m) htab_ne
      rw [h2] at hlast
      exact Option.some.inj hlast
    rw [hlast']
    show Real.exp (Real.log (μl : ℝ)) = (μl : ℝ)
    exact Real.exp_log (by exact_mod_cast hμpos μl (mem_of_getLast?_eq m.mu_cm1 μl hμl))

/-- Witness for C2 at the registered material `lead`. -/
theorem claim_C2_witness :
    (("lead"), lead) ∈ MATERIAL_DATA ∧
    ((∀ E μ, (E, μ) ∈ lead.energies_MeV.zip lead.mu_cm1 → muOf lead (E : ℝ) = (μ : ℝ)) ∧
     (∀ e : ℝ, 0 < e → (∀ E ∈ lead.energies_MeV, e < (E : ℝ)) →
       ∃ μ0, lead.mu_cm1.head? = some μ0 ∧ muOf lead e = (μ0 : ℝ)) ∧
     (∀ e : ℝ, (∀ E ∈ lead.energies_MeV, (E : ℝ) < e) →
       ∃ μl, lead.mu_cm1.getLast? = some μl ∧ muOf lead e = (μl : ℝ))) :=
  ⟨by simp [MATERIAL_DATA], claim_C2 ("lead") lead (by simp [MATERIAL_DATA])⟩

/-! ### Claims about `get_mu` and `required_thickness` -/

lemma lookup_get_mu (k : String) (m : Material) (e : ℝ)
    (hm : MATERIAL_DATA.lookup k = some m) : get_mu k e = .ok (muOf m e) := by
  unfold get_mu
  rw [hm]

lemma required_thickness_of_lt (k : String) (m : Material) (s t e : ℝ)
    (hm : MATERIAL_DATA.lookup k = some m) (h : t < s) :
    required_thickness k s t e = .ok (-Real.log (t / s) / muOf m e) := by
  unfold required_thickness
  rw [if_neg (not_le.mpr h), lookup_get_mu k m e hm]
  rfl

/-- C3: for a registered material, positive finite energy and non-negative
doses, `required_thickness` returns exactly `0.0` when
`source_dose <= target_dose`, and otherwise the Beer-Lambert inversion
`-ln(target_dose / source_dose) / mu(material, energy)`. -/
theorem claim_C3 (k : String) (m : Material) (s t e : ℝ)
    (hm : MATERIAL_DATA.lookup k = some m) (hs : 0 ≤ s) (ht : 0 ≤ t) (he : 0 < e) :
    (s ≤ t → required_thickness k s t e = .ok 0) ∧
    (t < s → required_thickness k s t e = .ok (-Real.log (t / s) / muOf m e)) := by
  constructor
  · intro h
    unfold required_thickness
    rw [if_pos h]
  · intro h
    exact required_thickness_of_lt k m s t e hm h

/-- Witness for C3 at `concrete`, doses 50 → 5 µSv/hr, 1 MeV. -/
theorem claim_C3_witness :
    MATERIAL_DATA.lookup ("concrete") = some concrete ∧
    (((50 : ℝ) ≤ 5 → required_thickness ("concrete") 50 5 1 = .ok 0) ∧
     ((5 : ℝ) < 50 →
       required_thickness ("concrete") 50 5 1 = .ok (-Real.log (5 / 50) / muOf concrete 1))) :=
  ⟨rfl, claim_C3 ("concrete") concrete 50 5 1 rfl (by norm_num) (by norm_num) (by norm_num)⟩

/-- C5 (amended): `get_mu` raises an error iff the material key is not
registered; the energy argument is never validated — no energy value, not even
a non-positive one, raises an error. -/
theorem claim_C5 (k : String) (e : ℝ) :
    (MATERIAL_DATA.lookup k = none → get_mu k e = .error (.unknownMaterial k)) ∧
    (∀ m, MATERIAL_DATA.lookup k = some m → get_mu k e = .ok (muOf m e)) := by
  constructor
  · intro h
    unfold get_mu
    rw [h]
  · intro m h
    exact lookup_get_mu k m e h

/-- Counterexample to C5 as stated: the energy `-1` is non-positive, yet
`get_mu('concrete', -1)` raises nothing (the source emits `np.log` of a
non-positive float, a NaN result, not an exception). -/
theorem claim_C5_counterexample :
    ((-1 : ℝ) ≤ 0) ∧ (get_mu ("concrete") (-1)).isOk = true :=
  ⟨by norm_num, rfl⟩

/-- Witness for C5 (amended): an unregistered key errors, a registered key
succeeds. -/
theorem claim_C5_witness :
    (MATERIAL_DATA.lookup ("kryptonite") = none ∧
      get_mu ("kryptonite") 1 = .error (.unknownMaterial ("kryptonite"))) ∧
    (MATERIAL_DATA.lookup ("steel") = some steel ∧
      get_mu ("steel") 1 = .ok (muOf steel 1)) :=
  ⟨⟨rfl, (claim_C5 ("kryptonite") 1).1 rfl⟩, ⟨rfl, (claim_C5 ("steel") 1).2 steel rfl⟩⟩

/-- C7: for a registered material and doses with `source > target > 0`,
`required_thickness` is strictly positive, and strictly increasing in the
ratio `source/target`. -/
theorem claim_C7 (k : String) (m : Material) (e s t s₁ t₁ s₂ t₂ : ℝ)
    (hm : MATERIAL_DATA.lookup k = some m) :
    (0 < t → t < s → ∃ v, required_thickness k s t e = .ok v ∧ 0 < v) ∧
    (0 < t₁ → t₁ < s₁ → 0 < t₂ → t₂ < s₂ → s₁ / t₁ < s₂ / t₂ →
      ∃ v₁ v₂, required_thickness k s₁ t₁ e = .ok v₁ ∧
        required_thickness k s₂ t₂ e = .ok v₂ ∧ v₁ < v₂) := by
  have hmu : 0 < muOf m e := Real.exp_pos _
  constructor
  · intro ht hts
    refine ⟨-Real.log (t / s) / muOf m e, required_thickness_of_lt k m s t e hm hts, ?_⟩
    have hs : 0 < s := ht.trans hts
    have h1 : 0 < t / s := div_pos ht hs
    have h2 : t / s < 1 := (div_lt_one hs).mpr hts
    have h3 : Real.log (t / s) < 0 := Real.log_neg h1 h2
    exact div_pos (by linarith) hmu
  · intro ht₁ hts₁ ht₂ hts₂ hr
    refine ⟨_, _, required_thickness_of_lt k m s₁ t₁ e hm hts₁,
      required_thickness_of_lt k m s₂ t₂ e hm hts₂, ?_⟩
    have hs₁ : 0 < s₁ := ht₁.trans hts₁
    have e₁ : -Real.log (t₁ / s₁) = Real.log (s₁ / t₁) := by
      rw [← Real.log_inv, inv_div]
    have e₂ : -Real.log (t₂ / s₂) = Real.log (s₂ / t₂) := by
      rw [← Real.log_inv, inv_div]
    rw [e₁, e₂]
    have hlog : Real.log (s₁ / t₁) < Real.log (s₂ / t₂) :=
      Real.log_lt_log (div_pos hs₁ ht₁) hr
    have hmul := mul_lt_mul_of_pos_right hlog (inv_pos.mpr hmu)
    simpa [div_eq_mul_inv] using hmul

/-- Witness for C7 at `concrete`: doses 4 → 1 and 8 → 1 at 1 MeV. -/
theorem claim_C7_witness :
    MATERIAL_DATA.lookup ("concrete") = some concrete ∧
    ((0 < (1 : ℝ) → (1 : ℝ) < 4 →
       ∃ v, required_thickness ("concrete") 4 1 1 = .ok v ∧ 0 < v) ∧
     (0 < (1 : ℝ) → (1 : ℝ) < 4 → 0 < (1 : ℝ) → (1 : ℝ) < 8 →
       (4 : ℝ) / 1 < 8 / 1 →
       ∃ v₁ v₂, required_thickness ("concrete") 4 1 1 = .ok v₁ ∧
         required_thickness ("concrete") 8 1 1 = .ok v₂ ∧ v₁ < v₂)) :=
  ⟨rfl, claim_C7 ("concrete") concrete 1 4 1 4 1 8 1 rfl⟩

/-- C9: whenever `source_dose <= target_dose`, `required_thickness` returns
`0.0` before consulting the material table — any key (registered or not) and
any energy succeed with no error. -/
theorem claim_C9 (k : String) (s t e : ℝ) (h : s ≤ t) :
    required_thickness k s t e = .ok 0 := by
  unfold required_thickness
  rw [if_pos h]

/-- Witness for C9 with an unregistered material key. -/
theorem claim_C9_witness :
    (1 : ℝ) ≤ 2 ∧ required_thickness ("unobtainium") 1 2 3 = .ok 0 :=
  ⟨by norm_num, claim_C9 ("unobtainium") 1 2 3 (by norm_num)⟩

/-! ### Interpolated map with nearest-neighbour back-fill
(radiation_mapper.py, `create_interpolated_map`)

`griddata(points, values, grid, method)` for `method='linear'|'cubic'` is an
external scipy collaborator that may leave grid cells undefined (NaN) outside
the convex hull; it is modelled as an arbitrary partial field
`primary : ℚ × ℚ → Option ℚ`.  `griddata(..., method='nearest')` — used both
as a primary method and as the back-fill pass — returns the value of the
nearest measurement point and is modelled concretely. -/

/-- Squared euclidean distance between two grid positions. -/
def sqDist (a b : ℚ × ℚ) : ℚ :=
  (a.1 - b.1) * (a.1 - b.1) + (a.2 - b.2) * (a.2 - b.2)

/-- Scan for the measurement point nearest to the query `g`, keeping the
current best on ties (any tie-break realises scipy's unspecified choice). -/
def nearestPoint (g : ℚ × ℚ) (best : Meas) : List Meas → Meas
  | [] => best
  | p :: rest =>
    if sqDist (p.x, p.y) g < sqDist (best.x, best.y) g then nearestPoint g p rest
    else nearestPoint g best rest

/-- `griddata(..., method='nearest')` at one grid cell: defined whenever at
least one measurement point exists. -/
def nearestValue (pts : List Meas) (g : ℚ × ℚ) : Option ℚ :=
  match pts with
  | [] => none
  | p :: rest => some (nearestPoint g p rest).dose_rate

/-- `create_interpolated_map`, cell by cell: the primary `griddata` result
where defined, and the `method='nearest'` back-fill on the NaN mask
(`grid_dose[mask] = grid_dose_nearest[mask]`).  The source performs no
validation of the measurement list. -/
def create_interpolated_map (primary : ℚ × ℚ → Option ℚ) (pts : List Meas)
    (grid : List (ℚ × ℚ)) : List (Option ℚ) :=
  grid.map (fun g =>
    match primary g with
    | some v => some v
    | none => nearestValue pts g)

/-- Three points on one line (zero cross product). -/
def collinear3 (p q r : Meas) : Prop :=
  (q.x - p.x) * (r.y - p.y) - (q.y - p.y) * (r.x - p.x) = 0

/-- A degenerate point set: every triple of measurement points collinear. -/
def allCollinear (pts : List Meas) : Prop :=
  ∀ p ∈ pts, ∀ q ∈ pts, ∀ r ∈ pts, collinear3 p q r

/-- C4: for at least 3 non-collinear measurement points and any primary
interpolation method (any partial field the method may produce), every cell of
`create_interpolated_map` is defined — cells the primary method leaves
undefined are back-filled by the nearest-neighbour pass over the same
points. -/
theorem claim_C4 (primary : ℚ × ℚ → Option ℚ) (pts : List Meas)
    (grid : List (ℚ × ℚ)) (h3 : 3 ≤ pts.length) (hnc : ¬ allCollinear pts) :
    (create_interpolated_map primary pts grid).all Option.isSome = true := by
  rw [List.all_eq_true]
  intro o ho
  obtain ⟨g, hg, rfl⟩ := List.mem_map.mp ho
  cases hp : primary g with
  | some v => simp [hp]
  | none =>
    cases pts with
    | nil => simp at h3
    | cons p rest => simp [hp, nearestValue]

/-- The end-to-end scenario points of the spec: three non-collinear
measurements. -/
def pts3 : List Meas := [⟨0, 0, 0.3⟩, ⟨10, 0, 5.0⟩, ⟨0, 10, 30.0⟩]

/-- Witness for C4: an all-undefined primary field is fully back-filled. -/
theorem claim_C4_witness :
    3 ≤ pts3.length ∧ ¬ allCollinear pts3 ∧
    (create_interpolated_map (fun g => none) pts3 [(0, 0)]).all Option.isSome = true := by
  have h3 : 3 ≤ pts3.length := by norm_num [pts3]
  have hnc : ¬ allCollinear pts3 := by
    intro h
    have hc := h ⟨0, 0, 0.3⟩ (by simp [pts3]) ⟨10, 0, 5.0⟩ (by simp [pts3])
      ⟨0, 10, 30.0⟩ (by simp [pts3])
    norm_num [collinear3] at hc
  exact ⟨h3, hnc, claim_C4 (fun g => none) pts3 [(0, 0)] h3 hnc⟩

/-- C6 (amended): `create_interpolated_map` performs no degenerate-input
validation at all; with the `nearest` method any nonempty measurement list —
degenerate or not — produces a fully defined grid without error. -/
theorem claim_C6 (pts : List Meas) (grid : List (ℚ × ℚ)) (hne : pts ≠ []) :
    (create_interpolated_map (fun g => nearestValue pts g) pts grid).all
      Option.isSome = true := by
  rw [List.all_eq_true]
  intro o ho
  obtain ⟨g, hg, rfl⟩ := List.mem_map.mp ho
  cases pts with
  | nil => exact absurd rfl hne
  | cons p rest => simp [nearestValue]

/-- A degenerate input: two measurement points. -/
def pts2 : List Meas := [⟨0, 0, 1⟩, ⟨4, 0, 2⟩]

/-- Counterexample to C6 as stated: on a degenerate input (2 points, fewer
than 3) with the `nearest` method, `create_interpolated_map` raises nothing —
it returns a fully defined grid. -/
theorem claim_C6_counterexample :
    pts2.length < 3 ∧
    create_interpolated_map (fun g => nearestValue pts2 g) pts2 [(1, 0)] = [some 1] := by
  constructor
  · norm_num [pts2]
  · norm_num [create_interpolated_map, nearestValue, nearestPoint, pts2, sqDist]

/-- Witness for C6 (amended) on the two-point degenerate input. -/
theorem claim_C6_witness :
    pts2 ≠ [] ∧
    (create_interpolated_map (fun g => nearestValue pts2 g) pts2 [(2, 3)]).all
      Option.isSome = true := by
  have hne : pts2 ≠ [] := by simp [pts2]
  exact ⟨hne, claim_C6 pts2 [(2, 3)] hne⟩
